import Mathlib

/-!
Shallow embedding of the two-machine / two-truck / one-client simulation core:
`Client` (client.py), `Machine` (machine.py), `Truck` (truck.py) and the
`System` orchestrator (system.py).

Quantities are modelled by rationals.  Randomness is externalised: the priority
draw of `Client.place_order` takes the sampled value of `random.random()` as an
explicit argument, and `Machine.step` takes the function `sample` describing
what `random.choices` returned for each batch size (`none` models the "none"
outcome).  Python exceptions are modelled by `Except Unit`; where the
orchestrator swallows an exception mid-method (the trucks' delivery call), the
entity step function returns directly the state the Python object is left in
when the exception propagates out of it.
-/

/-- Batch sizes of a machine run ("full", "half", "third" in machine.py). -/
inductive BatchSize
| full
| half
| third
deriving DecidableEq

/-- Raw-material need / output quantity of a batch size:
`{"full": 1.0, "half": 0.5, "third": 1/3}` in machine.py. -/
def batchQty : BatchSize → ℚ
| .full => 1
| .half => 1/2
| .third => 1/3

/-- Default `processing_times={"full": 3, "half": 2, "third": 1}`. -/
def defaultProcessingTimes : BatchSize → Int
| .full => 3
| .half => 2
| .third => 1

/-- The three states of machine.py: idle, processing, maintenance. -/
inductive MachineState
| idle
| processing
| maintenance
deriving DecidableEq

/-- State of a `Machine` object (machine.py).  The outcome probability tables
only influence which outcome `random.choices` returns; since sampling is
externalised they are not part of the state. -/
structure Machine where
  name : String
  state : MachineState
  current_batch_size : Option BatchSize
  time_remaining : Int
  stored_output : ℚ
  raw_material_consumed : ℚ
  maintenance_active : Bool
  total_operator_time : ℚ
  processing_times : BatchSize → Int
  maintenance_time : Int
  maintenance_operator_cost : ℚ

/-- A machine as built by `Machine.__init__` with the default configuration. -/
def Machine.init (name : String) : Machine :=
  { name := name
    state := .idle
    current_batch_size := none
    time_remaining := 0
    stored_output := 0
    raw_material_consumed := 0
    maintenance_active := false
    total_operator_time := 0
    processing_times := defaultProcessingTimes
    maintenance_time := 2
    maintenance_operator_cost := 1 }

/-- `Machine.retrieve_quantity`: retrieve up to `max_quantity` from the stored
output; returns the updated machine and the actual quantity retrieved. -/
def Machine.retrieve_quantity (m : Machine) (max_quantity : ℚ) : Machine × ℚ :=
  let quantity := min max_quantity m.stored_output
  ({ m with stored_output := m.stored_output - quantity }, quantity)

/-- `Machine.request_maintenance`: start maintenance if idle. -/
def Machine.request_maintenance (m : Machine) : Machine × Bool :=
  if m.state = .idle then
    ({ m with state := .maintenance
              time_remaining := m.maintenance_time
              total_operator_time := m.total_operator_time + m.maintenance_operator_cost },
     true)
  else (m, false)

/-- `Machine.request_processing`: start processing a batch if idle.  The
optional `source` argument is the machine referenced by `self.source_machine`
(`none` models the infinite raw-material pool of M1); the possibly updated
source is returned alongside.  Note that when a source is present the code
retrieves the material BEFORE checking sufficiency, so a failed request has
already drained the source. -/
def Machine.request_processing (m : Machine) (source : Option Machine)
    (batch_size : BatchSize) : Machine × Option Machine × Bool :=
  if m.state = .idle then
    let raw_material_needed := batchQty batch_size
    match source with
    | some sm =>
      let r := sm.retrieve_quantity raw_material_needed
      if r.2 < raw_material_needed then (m, some r.1, false)
      else
        ({ m with state := .processing
                  current_batch_size := some batch_size
                  time_remaining := m.processing_times batch_size },
         some r.1, true)
    | none =>
      ({ m with raw_material_consumed := m.raw_material_consumed + raw_material_needed
                state := .processing
                current_batch_size := some batch_size
                time_remaining := m.processing_times batch_size },
       none, true)
  else (m, source, false)

/-- `Machine.step`: advance by one time unit.  `sample b` is the outcome that
`random.choices` returns when a batch of size `b` completes (`none` is the
"none" outcome).  If `current_batch_size` is `None` while processing, the
Python code would raise a `KeyError` after the `time_remaining` decrement;
the returned state is the one the object is left in when that exception is
swallowed by the caller. -/
def Machine.step (m : Machine) (sample : BatchSize → Option BatchSize) :
    Machine × Bool :=
  match m.state with
  | .processing =>
    let t := m.time_remaining - 1
    if t ≤ 0 then
      match m.current_batch_size with
      | some bs =>
        let add := match sample bs with
                   | some outcome => batchQty outcome
                   | none => 0
        ({ m with state := .idle
                  current_batch_size := none
                  time_remaining := t
                  stored_output := m.stored_output + add }, true)
      | none => ({ m with time_remaining := t }, false)
    else ({ m with time_remaining := t }, false)
  | .maintenance =>
    let t := m.time_remaining - 1
    if t ≤ 0 then
      ({ m with maintenance_active := true, state := .idle, time_remaining := t }, true)
    else ({ m with time_remaining := t }, false)
  | .idle => (m, false)

/-- `Machine.is_idle`. -/
def Machine.is_idle (m : Machine) : Bool := m.state = .idle

/-- `Machine.reset`: back to the initial state (configuration kept). -/
def Machine.reset (m : Machine) : Machine :=
  { m with state := .idle
           current_batch_size := none
           time_remaining := 0
           stored_output := 0
           raw_material_consumed := 0
           maintenance_active := false
           total_operator_time := 0 }

/-- The four states of client.py. -/
inductive ClientState
| idle
| order_placed
| wait_for_completion
| completed
deriving DecidableEq

/-- Order priorities of client.py. -/
inductive Priority
| low
| medium
| high
deriving DecidableEq

/-- First component of `order_penalties[p]`: the time limit. -/
def priority_time_limit : Priority → Int
| .low => 20
| .medium => 15
| .high => 10

/-- Second component of `order_penalties[p]`: the in-time unit payment. -/
def priority_in_time_payment : Priority → ℚ
| .low => 5
| .medium => 10
| .high => 15

/-- Third component of `order_penalties[p]`: the out-of-time unit payment. -/
def priority_out_of_time_payment : Priority → ℚ
| .low => 1
| .medium => 2
| .high => 1

/-- The cumulative-probability walk of `Client.place_order` over the default
distribution `{"low": 0.4, "medium": 0.5, "high": 0.1}` in declaration order,
given the value `rand_val` drawn by `random.random()` (faithful for every
`rand_val < 1`, which `random.random` guarantees). -/
def select_priority (rand_val : ℚ) : Priority :=
  if rand_val ≤ 2/5 then .low
  else if rand_val ≤ 9/10 then .medium
  else .high

/-- State of a `Client` object (client.py).  The order parameters are `none`
before the first `place_order`, mirroring Python's `None`. -/
structure Client where
  state : ClientState
  time_passed : Int
  order_quantity : ℚ
  current_payment : ℚ
  current_priority : Option Priority
  time_limit : Option Int
  in_time_payment : Option ℚ
  out_of_time_payment : Option ℚ
deriving DecidableEq

/-- A client as built by `Client.__init__` with the default configuration. -/
def Client.init : Client :=
  { state := .idle
    time_passed := 0
    order_quantity := 0
    current_payment := 0
    current_priority := none
    time_limit := none
    in_time_payment := none
    out_of_time_payment := none }

/-- `Client.place_order`: raises unless idle; otherwise draws a priority from
`rand_val`, installs the corresponding penalties and starts the order. -/
def Client.place_order (c : Client) (rand_val : ℚ) :
    Except Unit (Client × Priority) :=
  if c.state = .idle then
    let p := select_priority rand_val
    .ok ({ c with current_priority := some p
                  time_limit := some (priority_time_limit p)
                  in_time_payment := some (priority_in_time_payment p)
                  out_of_time_payment := some (priority_out_of_time_payment p)
                  state := .order_placed
                  time_passed := 0
                  order_quantity := 0
                  current_payment := 0 }, p)
  else .error ()

/-- `Client.quantity_shipped`: raises when no order is active or the quantity
is invalid; otherwise accrues quantity and payment and updates the state.
Returns the updated client and the payment generated by this shipment. -/
def Client.quantity_shipped (c : Client) (quantity : ℚ) :
    Except Unit (Client × ℚ) :=
  if ¬(c.state = .order_placed ∨ c.state = .wait_for_completion) then .error ()
  else if quantity ≤ 0 ∨ c.order_quantity + quantity > 1 then .error ()
  else
    let payment :=
      if c.time_passed ≤ c.time_limit.getD 0 then quantity * (c.in_time_payment.getD 0)
      else quantity * (c.out_of_time_payment.getD 0)
    let q := c.order_quantity + quantity
    .ok ({ c with order_quantity := q
                  current_payment := c.current_payment + payment
                  state := if q ≥ 1 then .completed else .wait_for_completion },
         payment)

/-- `Client.step_time`: advance time by one unit while an order is active;
returns whether still within the time limit. -/
def Client.step_time (c : Client) : Client × Bool :=
  if c.state = .order_placed ∨ c.state = .wait_for_completion then
    let t := c.time_passed + 1
    ({ c with time_passed := t }, decide (t ≤ c.time_limit.getD 0))
  else (c, false)

/-- `Client.reset`: back to the initial state. -/
def Client.reset (_c : Client) : Client := Client.init

/-- The two truck states that actually occur in truck.py. -/
inductive TruckState
| available
| delivering
deriving DecidableEq

/-- State of a `Truck` object (truck.py).  In the `System` both the machine
and the client bindings are always set, so the source machine and the client
are passed explicitly to the operations that use them. -/
structure Truck where
  name : String
  capacity : ℚ
  time_to_deliver : Int
  state : TruckState
  current_load : ℚ
  time_remaining : Int

/-- A truck as built by `Truck.__init__`. -/
def Truck.init (capacity : ℚ) (time_to_deliver : Int) (name : String) : Truck :=
  { name := name
    capacity := capacity
    time_to_deliver := time_to_deliver
    state := .available
    current_load := 0
    time_remaining := 0 }

/-- `Truck.request_shipment`: if the truck is available, retrieve up to
`capacity` from the source machine; fail if the retrieved amount is `≤ 0`,
otherwise start delivering.  Returns the truck, the updated source machine
and the success flag. -/
def Truck.request_shipment (t : Truck) (m : Machine) : Truck × Machine × Bool :=
  if t.state = .available then
    let r := m.retrieve_quantity t.capacity
    if r.2 ≤ 0 then (t, r.1, false)
    else
      ({ t with current_load := r.2
                state := .delivering
                time_remaining := t.time_to_deliver }, r.1, true)
  else (t, m, false)

/-- `Truck.step`: advance by one time unit.  When the countdown reaches zero
the load is forwarded to the client via `quantity_shipped`; if that call
raises, the Python exception propagates after the `time_remaining` decrement,
so the truck is left delivering with its load intact and the client unchanged
(the third component is the `delivery_completed` flag). -/
def Truck.step (t : Truck) (c : Client) : Truck × Client × Bool :=
  match t.state with
  | .delivering =>
    let tr := t.time_remaining - 1
    if tr ≤ 0 then
      match c.quantity_shipped t.current_load with
      | .ok r =>
        ({ t with state := .available, current_load := 0, time_remaining := tr },
         r.1, true)
      | .error _ => ({ t with time_remaining := tr }, c, false)
    else ({ t with time_remaining := tr }, c, false)
  | .available => (t, c, false)

/-- `Truck.is_available`. -/
def Truck.is_available (t : Truck) : Bool := t.state = .available

/-- `Truck.reset`. -/
def Truck.reset (t : Truck) : Truck :=
  { t with state := .available, current_load := 0, time_remaining := 0 }

/-- State of the `System` object (system.py): the five owned entities plus the
bookkeeping fields of `__init__`. -/
structure Sys where
  client : Client
  m1 : Machine
  m2 : Machine
  small_truck : Truck
  big_truck : Truck
  time : Int
  total_profit : ℚ
  current_priority : Priority
  current_enacted_strategy : Int

/-- The `quantize` helper of `System.get_state`: clamp to `[0, 1]`, then
truncate to sixths (`int(value * 6) / 6`; `int` truncation equals `floor`
on the clamped non-negative value). -/
def quantize (value : ℚ) : ℚ :=
  let v := max 0 (min 1 value)
  ((Int.floor (v * 6) : ℚ)) / 6

/-- The priority field of the observation: the priority string, or `"none"`
when `current_priority` is falsy. -/
def priorityName : Option Priority → String
| none => "none"
| some .low => "low"
| some .medium => "medium"
| some .high => "high"

/-- Batch-size names as used in the `processing_<size>` status strings. -/
def batchName : BatchSize → String
| .full => "full"
| .half => "half"
| .third => "third"

/-- The name of a machine state as stored in `self.state`. -/
def machineStateName : MachineState → String
| .idle => "idle"
| .processing => "processing"
| .maintenance => "maintenance"

/-- The `current_batch_size` rendered inside an f-string (`None` when absent,
which only happens in states the orchestrator never produces). -/
def optBatchName : Option BatchSize → String
| some b => batchName b
| none => "None"

/-- The 13-field observation tuple returned by `System.get_state`. -/
structure Obs where
  client_current_priority : String
  quantity_shipped_to_the_client : ℚ
  time_to_penalty : Int
  m1_status : String
  m1_stored : ℚ
  m1_to_completion : Int
  m2_status : String
  m2_stored : ℚ
  m2_to_completion : Int
  ts_status : String
  ts_to_completion : Int
  tb_status : String
  tb_to_completion : Int
deriving DecidableEq

/-- Status tag and ticks-remaining of a machine in `System.get_state`. -/
def machineStatus (m : Machine) : String × Int :=
  if m.state = .processing then
    ("processing_" ++ optBatchName m.current_batch_size, m.time_remaining)
  else (machineStateName m.state, 0)

/-- Status tag and ticks-remaining of the small truck in `System.get_state`. -/
def tsStatusOf (t : Truck) : String × Int :=
  if t.state = .delivering then
    (if t.current_load = 0 then "shipping_zero" else "shipping_third",
     t.time_remaining)
  else ("idle", 0)

/-- Status tag and ticks-remaining of the big truck in `System.get_state`. -/
def tbStatusOf (t : Truck) : String × Int :=
  if t.state = .delivering then
    (let load := quantize t.current_load
     if load = 0 then "shipping_zero"
     else if load ≤ 1/3 then "shipping_third"
     else if load ≤ 2/3 then "shipping_half"
     else "shipping_full",
     t.time_remaining)
  else ("idle", 0)

/-- The `time_to_penalty` field of `System.get_state`. -/
def timeToPenalty (c : Client) : Int :=
  if c.state = .order_placed ∨ c.state = .wait_for_completion then
    let ttp := max 0 (c.time_limit.getD 0 - c.time_passed)
    if c.time_passed > c.time_limit.getD 0 then -1 else ttp
  else -1

/-- `System.get_state`: the quantized, discretized observation. -/
def Sys.get_state (s : Sys) : Obs :=
  { client_current_priority := priorityName s.client.current_priority
    quantity_shipped_to_the_client := quantize s.client.order_quantity
    time_to_penalty := timeToPenalty s.client
    m1_status := (machineStatus s.m1).1
    m1_stored := quantize s.m1.stored_output
    m1_to_completion := (machineStatus s.m1).2
    m2_status := (machineStatus s.m2).1
    m2_stored := quantize s.m2.stored_output
    m2_to_completion := (machineStatus s.m2).2
    ts_status := (tsStatusOf s.small_truck).1
    ts_to_completion := (tsStatusOf s.small_truck).2
    tb_status := (tbStatusOf s.big_truck).1
    tb_to_completion := (tbStatusOf s.big_truck).2 }

/-- State effect of the `m1_processing_<size>` command methods: one
`request_processing` attempt on M1 (no upstream source). -/
def Sys.m1Processing (s : Sys) (bs : BatchSize) : Sys :=
  { s with m1 := (s.m1.request_processing none bs).1 }

/-- State effect of the `m2_processing_<size>` command methods: one
`request_processing` attempt on M2, drawing on M1 as the source. -/
def Sys.m2Processing (s : Sys) (bs : BatchSize) : Sys :=
  let r := s.m2.request_processing (some s.m1) bs
  { s with m2 := r.1, m1 := (r.2.1).getD s.m1 }

/-- State effect of the `m1_maintenance` command method. -/
def Sys.m1Maintenance (s : Sys) : Sys :=
  { s with m1 := s.m1.request_maintenance.1 }

/-- State effect of the `m2_maintenance` command method. -/
def Sys.m2Maintenance (s : Sys) : Sys :=
  { s with m2 := s.m2.request_maintenance.1 }

/-- State effect of the `small_truck_shipment` command method: one
`request_shipment` attempt on the small truck, drawing on M2. -/
def Sys.smallTruckShipment (s : Sys) : Sys :=
  let r := s.small_truck.request_shipment s.m2
  { s with small_truck := r.1, m2 := r.2.1 }

/-- State effect of the `big_truck_shipment` command method. -/
def Sys.bigTruckShipment (s : Sys) : Sys :=
  let r := s.big_truck.request_shipment s.m2
  { s with big_truck := r.1, m2 := r.2.1 }

/-- `System.step`: advance, in source order, M1, M2, the small truck, the big
truck, and the client, each by one tick.  `sample1`/`sample2` externalise the
outcome sampling of the two machines.  All exceptions raised by the entity
steps are swallowed (the truck steps already return the post-exception
state). -/
def Sys.step (s : Sys) (sample1 sample2 : BatchSize → Option BatchSize) : Sys :=
  let m1r := s.m1.step sample1
  let m2r := s.m2.step sample2
  let tsr := s.small_truck.step s.client
  let tbr := s.big_truck.step tsr.2.1
  let cr := tbr.2.1.step_time
  { s with m1 := m1r.1, m2 := m2r.1, small_truck := tsr.1, big_truck := tbr.1,
           client := cr.1 }

/-- `System.step` including its return value `self.get_state()`, computed
after all five entities have stepped. -/
def Sys.stepObs (s : Sys) (sample1 sample2 : BatchSize → Option BatchSize) :
    Sys × Obs :=
  let s' := s.step sample1 sample2
  (s', s'.get_state)

/-- The M1 leg of `System.step` in isolation. -/
def Sys.stepM1Part (s : Sys) (sample1 : BatchSize → Option BatchSize) : Sys :=
  { s with m1 := (s.m1.step sample1).1 }

/-- The M2 leg of `System.step` in isolation. -/
def Sys.stepM2Part (s : Sys) (sample2 : BatchSize → Option BatchSize) : Sys :=
  { s with m2 := (s.m2.step sample2).1 }

/-- The small-truck leg of `System.step` in isolation (it may deliver to the
client, so the client is updated too). -/
def Sys.stepTSPart (s : Sys) : Sys :=
  let r := s.small_truck.step s.client
  { s with small_truck := r.1, client := r.2.1 }

/-- The big-truck leg of `System.step` in isolation. -/
def Sys.stepTBPart (s : Sys) : Sys :=
  let r := s.big_truck.step s.client
  { s with big_truck := r.1, client := r.2.1 }

/-- The client leg of `System.step` in isolation. -/
def Sys.stepClientPart (s : Sys) : Sys :=
  { s with client := s.client.step_time.1 }

/-- The 11 dispatchable commands of `System.alphabet()` (reset excluded),
in their declared order. -/
inductive Cmd
| m1_processing_third
| m1_processing_half
| m1_processing_full
| m1_maintenance
| m2_processing_third
| m2_processing_half
| m2_processing_full
| m2_maintenance
| small_truck_shipment
| big_truck_shipment
| step
deriving DecidableEq

/-- State effect of dispatching one command (`System.action` without the
string formatting; the failure of an entity request is swallowed). -/
def runCmd (sample1 sample2 : BatchSize → Option BatchSize) (c : Cmd) (s : Sys) :
    Sys :=
  match c with
  | .m1_processing_third => s.m1Processing .third
  | .m1_processing_half => s.m1Processing .half
  | .m1_processing_full => s.m1Processing .full
  | .m1_maintenance => s.m1Maintenance
  | .m2_processing_third => s.m2Processing .third
  | .m2_processing_half => s.m2Processing .half
  | .m2_processing_full => s.m2Processing .full
  | .m2_maintenance => s.m2Maintenance
  | .small_truck_shipment => s.smallTruckShipment
  | .big_truck_shipment => s.bigTruckShipment
  | .step => s.step sample1 sample2

/-- A system as built by `System.__init__`: fresh entities, an immediate
`place_order` (fed the drawn `rand_val`), then an immediate
`m1_processing_full` command. -/
def freshSys (rand_val : ℚ) : Sys :=
  let r := (Client.init.place_order rand_val).toOption.getD (Client.init, .low)
  let s0 : Sys :=
    { client := r.1
      m1 := Machine.init "M1"
      m2 := Machine.init "M2"
      small_truck := Truck.init (1/3) 2 "Small Truck"
      big_truck := Truck.init 1 3 "Big Truck"
      time := 0
      total_profit := 0
      current_priority := r.2
      current_enacted_strategy := 0 }
  s0.m1Processing .full

/-- The terminal string of `enact_strategy` for a completed order:
`f"Completed {time_passed <= time_limit} {current_priority}"`. -/
def completedString (c : Client) : String :=
  "Completed " ++ (if c.time_passed ≤ c.time_limit.getD 0 then "True" else "False")
    ++ " " ++ (match c.current_priority with
               | some .low => "low"
               | some .medium => "medium"
               | some .high => "high"
               | none => "None")

/-- `m1_running` in `enact_strategy`: M1 status differs from idle. -/
def m1RunningB (s : Sys) : Bool := !(decide (s.m1.state = MachineState.idle))

/-- `m2_running` in `enact_strategy`. -/
def m2RunningB (s : Sys) : Bool := !(decide (s.m2.state = MachineState.idle))

/-- `ts_running` in `enact_strategy`: small truck status differs from
available. -/
def tsRunningB (s : Sys) : Bool := !(decide (s.small_truck.state = TruckState.available))

/-- `tb_running` in `enact_strategy`. -/
def tbRunningB (s : Sys) : Bool := !(decide (s.big_truck.state = TruckState.available))

/-- `m1_maintenance_active` in `enact_strategy`: the flag is set or the
machine is currently under maintenance. -/
def m1MaintActiveB (s : Sys) : Bool :=
  s.m1.maintenance_active || decide (s.m1.state = MachineState.maintenance)

/-- `m2_maintenance_active` in `enact_strategy`. -/
def m2MaintActiveB (s : Sys) : Bool :=
  s.m2.maintenance_active || decide (s.m2.state = MachineState.maintenance)

/-- The command chosen by the `if`/`elif` chain of `enact_strategy` when the
terminal check does not fire. -/
def Sys.strategyCommand (s : Sys) : Cmd :=
  if !m2MaintActiveB s then .m2_maintenance
  else if !m2RunningB s && decide (0 < s.m1.stored_output)
         && decide (s.client.order_quantity < 1) then .m2_processing_third
  else if !m1RunningB s && !m1MaintActiveB s
         && decide (s.client.order_quantity < 1) then .m1_maintenance
  else if !m1RunningB s && decide (s.client.order_quantity < 1) then
    .m1_processing_full
  else if !tsRunningB s && decide (0 < s.m2.stored_output) then
    .small_truck_shipment
  else if !tsRunningB s && !tbRunningB s && decide (0 < s.m2.stored_output) then
    .big_truck_shipment
  else .step

/-- The decision of `enact_strategy`: either the terminal string (the method
returns immediately, issuing no command) or the command it executes. -/
def Sys.enactDecision (s : Sys) : Sum String Cmd :=
  if s.client.state = ClientState.completed ∧ 1 ≤ s.client.order_quantity then
    Sum.inl (completedString s.client)
  else Sum.inr s.strategyCommand

/-- `enact_strategy` as a state transformer: terminal states are returned
unchanged along with the terminal string, otherwise the selected command is
executed via `self.action(command, repr=False)`. -/
def Sys.enactStrategyAct (s : Sys)
    (sample1 sample2 : BatchSize → Option BatchSize) : Sys × Sum String Cmd :=
  match s.enactDecision with
  | Sum.inl msg => (s, Sum.inl msg)
  | Sum.inr c => (runCmd sample1 sample2 c s, Sum.inr c)

/-- Modelled from the spec: the strategy as the spec states it, a rule table
scanned in priority order, the first matching guard winning (section 4.4,
rules 1 to 6, falling through to `step`). -/
def strategyRules : List ((Sys → Bool) × Cmd) :=
  [ (fun s => !m2MaintActiveB s, .m2_maintenance),
    (fun s => !m2RunningB s && decide (0 < s.m1.stored_output)
                && decide (s.client.order_quantity < 1), .m2_processing_third),
    (fun s => !m1RunningB s && !m1MaintActiveB s
                && decide (s.client.order_quantity < 1), .m1_maintenance),
    (fun s => !m1RunningB s && decide (s.client.order_quantity < 1),
      .m1_processing_full),
    (fun s => !tsRunningB s && decide (0 < s.m2.stored_output),
      .small_truck_shipment),
    (fun s => !tsRunningB s && !tbRunningB s && decide (0 < s.m2.stored_output),
      .big_truck_shipment) ]

/-- Modelled from the spec: scan a rule table in order and fire the first rule
whose guard matches, defaulting when none does. -/
def firstMatch : List ((Sys → Bool) × Cmd) → Sys → Cmd → Cmd
| [], _, dflt => dflt
| r :: rest, s, dflt => if r.1 s then r.2 else firstMatch rest s dflt

/-- Raw-material input currently inside a machine: the raw-material need of
the batch it is processing, `0` otherwise. -/
def Machine.inFlight (m : Machine) : ℚ :=
  if m.state = .processing then
    match m.current_batch_size with
    | some bs => batchQty bs
    | none => 0
  else 0

/-- Load currently in transit on a truck (`shipped_m2_amount` contribution in
`enact_strategy`). -/
def Truck.inTransit (t : Truck) : ℚ :=
  if t.state = .delivering then t.current_load else 0

/-- The conservation sum exactly as the claim (and `total_material` in
`enact_strategy`) states it: M1 stored + M2 in-flight input + M2 stored +
truck loads in transit + client order quantity.  M1's own in-flight input is
absent. -/
def totalSpec (s : Sys) : ℚ :=
  s.m1.stored_output + s.m2.inFlight + s.m2.stored_output
    + s.small_truck.inTransit + s.big_truck.inTransit + s.client.order_quantity

/-- The conservation sum with M1's in-flight raw material included. -/
def totalAmended (s : Sys) : ℚ := s.m1.inFlight + totalSpec s

/-- The sampler in which every completed batch yields its own size (no "none"
outcome and no downgraded outcome is ever drawn). -/
def perfectSample : BatchSize → Option BatchSize := fun b => some b

/-- Run a command list with every probabilistic completion outcome equal to
its batch size. -/
def runPerfect (s : Sys) (cs : List Cmd) : Sys :=
  cs.foldl (fun s c => runCmd perfectSample perfectSample c s) s

/-- A command is lossless in a state when it is not an `m2_processing`
request that would drain a positive-but-insufficient M1 store (the one
operation that destroys material, see `Machine.request_processing`). -/
def goodCmdB (s : Sys) : Cmd → Bool
| .m2_processing_third =>
    !(decide (s.m2.state = MachineState.idle))
      || decide (batchQty .third ≤ s.m1.stored_output)
      || decide (s.m1.stored_output ≤ 0)
| .m2_processing_half =>
    !(decide (s.m2.state = MachineState.idle))
      || decide (batchQty .half ≤ s.m1.stored_output)
      || decide (s.m1.stored_output ≤ 0)
| .m2_processing_full =>
    !(decide (s.m2.state = MachineState.idle))
      || decide (batchQty .full ≤ s.m1.stored_output)
      || decide (s.m1.stored_output ≤ 0)
| _ => true

/-- A command trace is lossless when every command is lossless in the state
it executes in (outcomes sampled by `perfectSample`). -/
def goodTraceB : Sys → List Cmd → Bool
| _, [] => true
| s, c :: cs =>
    goodCmdB s c && goodTraceB (runCmd perfectSample perfectSample c s) cs

/-- Success test for the `Except`-modelled Python calls. -/
def exceptOk {α : Type} : Except Unit α → Bool
| .ok _ => true
| .error _ => false

/-- Run a list of `System.step()` calls, each with its own pair of outcome
samplers. -/
def runSteps (s : Sys)
    (ps : List ((BatchSize → Option BatchSize) × (BatchSize → Option BatchSize))) :
    Sys :=
  ps.foldl (fun s p => s.step p.1 p.2) s

/-- Along a run of `System.step()` calls, the client rejects the small
truck's current load at every tick. -/
def stuckRun : Sys →
    List ((BatchSize → Option BatchSize) × (BatchSize → Option BatchSize)) → Bool
| _, [] => true
| s, p :: ps =>
    !(exceptOk (s.client.quantity_shipped s.small_truck.current_load))
      && stuckRun (s.step p.1 p.2) ps

/-- `System.m1_processing_third`: one request attempt, then `get_state`. -/
def Sys.m1_processing_third (s : Sys) : Sys × Obs :=
  let s' := s.m1Processing .third
  (s', s'.get_state)

/-- `System.m1_processing_half`. -/
def Sys.m1_processing_half (s : Sys) : Sys × Obs :=
  let s' := s.m1Processing .half
  (s', s'.get_state)

/-- `System.m1_processing_full`. -/
def Sys.m1_processing_full (s : Sys) : Sys × Obs :=
  let s' := s.m1Processing .full
  (s', s'.get_state)

/-- `System.m1_maintenance`. -/
def Sys.m1_maintenance (s : Sys) : Sys × Obs :=
  let s' := s.m1Maintenance
  (s', s'.get_state)

/-- `System.m2_processing_third`. -/
def Sys.m2_processing_third (s : Sys) : Sys × Obs :=
  let s' := s.m2Processing .third
  (s', s'.get_state)

/-- `System.m2_processing_half`. -/
def Sys.m2_processing_half (s : Sys) : Sys × Obs :=
  let s' := s.m2Processing .half
  (s', s'.get_state)

/-- `System.m2_processing_full`. -/
def Sys.m2_processing_full (s : Sys) : Sys × Obs :=
  let s' := s.m2Processing .full
  (s', s'.get_state)

/-- `System.m2_maintenance`. -/
def Sys.m2_maintenance (s : Sys) : Sys × Obs :=
  let s' := s.m2Maintenance
  (s', s'.get_state)

/-- `System.small_truck_shipment`. -/
def Sys.small_truck_shipment (s : Sys) : Sys × Obs :=
  let s' := s.smallTruckShipment
  (s', s'.get_state)

/-- `System.big_truck_shipment`. -/
def Sys.big_truck_shipment (s : Sys) : Sys × Obs :=
  let s' := s.bigTruckShipment
  (s', s'.get_state)

/-- The client-level operations that may occur between two resets (reset
itself and construction both yield `Client.init`). -/
inductive ClientOp
| place_order (rand_val : ℚ)
| quantity_shipped (q : ℚ)
| step_time

/-- Attempt one client operation; a raised precondition error leaves the
object unchanged (the caller swallows it). -/
def Client.applyOp (c : Client) : ClientOp → Client
| .place_order r =>
  match c.place_order r with
  | .ok p => p.1
  | .error _ => c
| .quantity_shipped q =>
  match c.quantity_shipped q with
  | .ok p => p.1
  | .error _ => c
| .step_time => c.step_time.1

/-- Run a sequence of client operations. -/
def Client.runOps (c : Client) (ops : List ClientOp) : Client :=
  ops.foldl Client.applyOp c

/-- The client data invariant: the fulfilled quantity stays in `[0, 1]`-shape
(`≤ 1`), the completed state is equivalent to full fulfilment, and an idle
client has no accumulated quantity. -/
def ClientInv (c : Client) : Prop :=
  c.order_quantity ≤ 1
  ∧ (c.state = .completed ↔ c.order_quantity = 1)
  ∧ (c.state = .idle → c.order_quantity = 0)

/-- The system conservation invariant: M1's cumulative raw-material intake
equals all material currently in the pipeline (M1's and M2's in-flight input,
both stores, both truck loads, and the client's fulfilled quantity), together
with the sign and capacity facts needed to maintain it. -/
def SysInv (s : Sys) : Prop :=
  s.m1.raw_material_consumed = totalAmended s
  ∧ 0 ≤ s.m1.stored_output ∧ 0 ≤ s.m2.stored_output
  ∧ 0 < s.small_truck.capacity ∧ 0 < s.big_truck.capacity

/-- A concrete upstream machine holding a full unit of output (witness
input). -/
def witnessSourceFull : Machine :=
  { Machine.init "M1" with stored_output := 1 }

/-- A concrete upstream machine holding only a sixth of a unit (insufficient
for any batch; counterexample input). -/
def witnessSourceSixth : Machine :=
  { Machine.init "M1" with stored_output := 1/6 }

/-- A concrete client with an active order (used as a witness input). -/
def witnessClient : Client :=
  { Client.init with
      state := .order_placed
      time_limit := some 20
      in_time_payment := some 5
      out_of_time_payment := some 1 }

/-- The client `witnessClient` after a successful `quantity_shipped (1/2)`. -/
def witnessClientAfter : Client :=
  { witnessClient with
      state := .wait_for_completion
      order_quantity := 1/2
      current_payment := 5/2 }

/-- A concrete system whose client has a completed order (witness input). -/
def witnessCompletedSys : Sys :=
  { freshSys 0 with
      client := { witnessClient with
                    state := .completed
                    order_quantity := 1 } }

/-- A concrete small truck one tick away from delivery (witness input). -/
def witnessStuckTruck : Truck :=
  { Truck.init (1/3) 2 "Small Truck" with
      state := .delivering
      current_load := 1/3
      time_remaining := 1 }

/-- A system whose small truck is about to attempt a delivery that its
completed client will reject (witness input). -/
def witnessStuckSys : Sys :=
  { witnessCompletedSys with small_truck := witnessStuckTruck }

/-! Helper lemmas shared by the claim theorems. -/

theorem batchQty_pos (bs : BatchSize) : 0 < batchQty bs := by
  cases bs <;> norm_num [batchQty]

theorem freshSys_eq (rand_val : ℚ) : freshSys rand_val =
    { client := { state := .order_placed, time_passed := 0, order_quantity := 0,
                  current_payment := 0,
                  current_priority := some (select_priority rand_val),
                  time_limit := some (priority_time_limit (select_priority rand_val)),
                  in_time_payment := some (priority_in_time_payment (select_priority rand_val)),
                  out_of_time_payment := some (priority_out_of_time_payment (select_priority rand_val)) }
      m1 := { name := "M1", state := .processing, current_batch_size := some .full,
              time_remaining := 3, stored_output := 0, raw_material_consumed := 1,
              maintenance_active := false, total_operator_time := 0,
              processing_times := defaultProcessingTimes, maintenance_time := 2,
              maintenance_operator_cost := 1 }
      m2 := Machine.init "M2"
      small_truck := Truck.init (1/3) 2 "Small Truck"
      big_truck := Truck.init 1 3 "Big Truck"
      time := 0
      total_profit := 0
      current_priority := select_priority rand_val
      current_enacted_strategy := 0 } := by
  simp [freshSys, Client.place_order, Client.init, Sys.m1Processing,
        Machine.request_processing, Machine.init, batchQty, defaultProcessingTimes,
        Except.toOption]

/-- C5: the quantize helper of `System.get_state` equals
`floor(6 * clamp(q)) / 6`; on `[0, 1]` its value is one of the seven sixths
and is a lower bound of its argument, and it is monotone everywhere. -/
theorem quantize_spec :
    (∀ q : ℚ, quantize q = ((Int.floor (6 * max 0 (min 1 q)) : ℚ)) / 6)
    ∧ (∀ q : ℚ, 0 ≤ q → q ≤ 1 →
        quantize q ∈ ({0, 1/6, 2/6, 3/6, 4/6, 5/6, 1} : Set ℚ) ∧ quantize q ≤ q)
    ∧ (∀ q₁ q₂ : ℚ, q₁ ≤ q₂ → quantize q₁ ≤ quantize q₂) := by
  have hsix : ∀ k : ℤ, 0 ≤ k → k ≤ 6 →
      ((k : ℚ) / 6) ∈ ({0, 1/6, 2/6, 3/6, 4/6, 5/6, 1} : Set ℚ) := by
    intro k hk0 hk6
    interval_cases k <;> norm_num [Set.mem_insert_iff]
  refine ⟨?_, ?_, ?_⟩
  · intro q
    unfold quantize
    rw [mul_comm]
  · intro q h0 h1
    have hc : max 0 (min 1 q) = q := by rw [min_eq_right h1, max_eq_right h0]
    have hquant : quantize q = ((Int.floor (q * 6) : ℚ)) / 6 := by
      show ((Int.floor ((max 0 (min 1 q)) * 6) : ℚ)) / 6 = _
      rw [hc]
    constructor
    · have hn0 : (0 : ℤ) ≤ Int.floor (q * 6) := Int.floor_nonneg.mpr (by positivity)
      have hn6 : Int.floor (q * 6) ≤ 6 := by
        have h66 : Int.floor (q * 6) ≤ Int.floor ((6 : ℚ)) :=
          Int.floor_le_floor (by nlinarith)
        simpa using h66
      rw [hquant]
      exact hsix _ hn0 hn6
    · rw [hquant, div_le_iff₀ (by norm_num : (0:ℚ) < 6)]
      exact Int.floor_le (q * 6)
  · intro a b hab
    unfold quantize
    have hmm : max 0 (min 1 a) ≤ max 0 (min 1 b) :=
      max_le_max le_rfl (min_le_min le_rfl hab)
    have hf : Int.floor ((max 0 (min 1 a)) * 6) ≤ Int.floor ((max 0 (min 1 b)) * 6) :=
      Int.floor_le_floor (by nlinarith)
    have hq : ((Int.floor ((max 0 (min 1 a)) * 6) : ℚ))
        ≤ ((Int.floor ((max 0 (min 1 b)) * 6) : ℚ)) := by exact_mod_cast hf
    linarith

/-- Witness for C5 at concrete inputs. -/
theorem quantize_spec_witness :
    ((0:ℚ) ≤ 1/2 ∧ (1/2:ℚ) ≤ 1
      ∧ quantize (1/2) ∈ ({0, 1/6, 2/6, 3/6, 4/6, 5/6, 1} : Set ℚ)
      ∧ quantize (1/2) ≤ 1/2)
    ∧ ((0:ℚ) ≤ 1 ∧ quantize 0 ≤ quantize 1) :=
  ⟨⟨by norm_num, by norm_num,
    (quantize_spec.2.1 (1/2) (by norm_num) (by norm_num)).1,
    (quantize_spec.2.1 (1/2) (by norm_num) (by norm_num)).2⟩,
   ⟨by norm_num, quantize_spec.2.2 0 1 (by norm_num)⟩⟩

/-- C6: `Client.quantity_shipped` raises exactly when no order is active, the
quantity is non-positive, or the quantity would overshoot the order; on
success it accrues the timing-dependent payment and the quantity and moves to
`completed` exactly when the order quantity reaches 1, else to
`wait_for_completion`. -/
theorem quantity_shipped_spec :
    ∀ (c : Client) (q : ℚ),
      (exceptOk (c.quantity_shipped q) = false ↔
        (¬(c.state = ClientState.order_placed ∨ c.state = ClientState.wait_for_completion)
          ∨ q ≤ 0 ∨ c.order_quantity + q > 1))
      ∧ (∀ (c' : Client) (pay : ℚ), c.quantity_shipped q = .ok (c', pay) →
          pay = (if c.time_passed ≤ c.time_limit.getD 0 then q * c.in_time_payment.getD 0
                 else q * c.out_of_time_payment.getD 0)
          ∧ c'.order_quantity = c.order_quantity + q
          ∧ c'.current_payment = c.current_payment + pay
          ∧ c'.state = (if c.order_quantity + q ≥ 1 then ClientState.completed
                        else ClientState.wait_for_completion)) := by
  intro c q
  constructor
  · unfold Client.quantity_shipped exceptOk
    by_cases h1 : c.state = ClientState.order_placed ∨ c.state = ClientState.wait_for_completion
    · by_cases h2 : q ≤ 0 ∨ c.order_quantity + q > 1
      · rw [if_neg (not_not_intro h1), if_pos h2]
        simp [h1, h2]
      · rw [if_neg (not_not_intro h1), if_neg h2]
        simp [h1, h2]
    · rw [if_pos h1]
      simp [h1]
  · intro c' pay h
    unfold Client.quantity_shipped at h
    by_cases h1 : c.state = ClientState.order_placed ∨ c.state = ClientState.wait_for_completion
    · by_cases h2 : q ≤ 0 ∨ c.order_quantity + q > 1
      · rw [if_neg (not_not_intro h1), if_pos h2] at h
        exact absurd h (by simp)
      · rw [if_neg (not_not_intro h1), if_neg h2] at h
        simp only [Except.ok.injEq, Prod.mk.injEq] at h
        obtain ⟨hc, hp⟩ := h
        subst hc
        subst hp
        exact ⟨rfl, rfl, rfl, rfl⟩
    · rw [if_pos h1] at h
      exact absurd h (by simp)

/-- Witness for C6: the success postconditions at a concrete shipment. -/
theorem quantity_shipped_spec_witness :
    (5/2 : ℚ) = (if witnessClient.time_passed ≤ witnessClient.time_limit.getD 0
                 then (1/2 : ℚ) * witnessClient.in_time_payment.getD 0
                 else (1/2 : ℚ) * witnessClient.out_of_time_payment.getD 0)
    ∧ witnessClientAfter.order_quantity = witnessClient.order_quantity + 1/2
    ∧ witnessClientAfter.current_payment = witnessClient.current_payment + 5/2
    ∧ witnessClientAfter.state
        = (if witnessClient.order_quantity + 1/2 ≥ 1 then ClientState.completed
           else ClientState.wait_for_completion) :=
  (quantity_shipped_spec witnessClient (1/2)).2 witnessClientAfter (5/2)
    (by norm_num [Client.quantity_shipped, witnessClient, witnessClientAfter, Client.init])

theorem clientInv_init : ClientInv Client.init := by
  refine ⟨by norm_num [Client.init], ?_, fun _ => rfl⟩
  constructor
  · intro h
    exact absurd h (by simp [Client.init])
  · intro h
    exact absurd h (by norm_num [Client.init])

theorem clientInv_applyOp (c : Client) (op : ClientOp) (hinv : ClientInv c) :
    ClientInv (c.applyOp op) ∧ c.order_quantity ≤ (c.applyOp op).order_quantity := by
  obtain ⟨hle, hcompl, hidle⟩ := hinv
  cases op with
  | place_order r =>
    simp only [Client.applyOp, Client.place_order]
    by_cases h : c.state = ClientState.idle
    · rw [if_pos h]
      have hq0 : c.order_quantity = 0 := hidle h
      refine ⟨⟨by norm_num, ?_, by simp⟩, by simp [hq0]⟩
      constructor
      · intro hc
        exact absurd hc (by simp)
      · intro hc
        exact absurd hc (by norm_num)
    · rw [if_neg h]
      exact ⟨⟨hle, hcompl, hidle⟩, le_rfl⟩
  | quantity_shipped q =>
    simp only [Client.applyOp, Client.quantity_shipped]
    by_cases h1 : c.state = ClientState.order_placed ∨ c.state = ClientState.wait_for_completion
    · by_cases h2 : q ≤ 0 ∨ c.order_quantity + q > 1
      · rw [if_neg (not_not_intro h1), if_pos h2]
        exact ⟨⟨hle, hcompl, hidle⟩, le_rfl⟩
      · rw [if_neg (not_not_intro h1), if_neg h2]
        simp only [not_or, not_le, not_lt] at h2
        obtain ⟨hqpos, hsum⟩ := h2
        refine ⟨⟨?_, ?_, ?_⟩, ?_⟩
        · show c.order_quantity + q ≤ 1
          exact hsum
        · show (if c.order_quantity + q ≥ 1 then ClientState.completed
                else ClientState.wait_for_completion) = ClientState.completed
              ↔ c.order_quantity + q = 1
          by_cases h3 : c.order_quantity + q ≥ 1
          · rw [if_pos h3]
            exact ⟨fun _ => le_antisymm hsum h3, fun _ => rfl⟩
          · rw [if_neg h3]
            push_neg at h3
            constructor
            · intro hc
              exact absurd hc (by simp)
            · intro hc
              exact absurd hc (by linarith)
        · show (if c.order_quantity + q ≥ 1 then ClientState.completed
                else ClientState.wait_for_completion) = ClientState.idle
              → c.order_quantity + q = 0
          intro hc
          by_cases h3 : c.order_quantity + q ≥ 1
          · rw [if_pos h3] at hc
            exact absurd hc (by simp)
          · rw [if_neg h3] at hc
            exact absurd hc (by simp)
        · show c.order_quantity ≤ c.order_quantity + q
          linarith
    · rw [if_pos h1]
      exact ⟨⟨hle, hcompl, hidle⟩, le_rfl⟩
  | step_time =>
    simp only [Client.applyOp, Client.step_time]
    by_cases h : c.state = ClientState.order_placed ∨ c.state = ClientState.wait_for_completion
    · rw [if_pos h]
      exact ⟨⟨hle, hcompl, hidle⟩, le_rfl⟩
    · rw [if_neg h]
      exact ⟨⟨hle, hcompl, hidle⟩, le_rfl⟩

theorem clientInv_runOps (c : Client) (ops : List ClientOp) (hinv : ClientInv c) :
    ClientInv (c.runOps ops) ∧ c.order_quantity ≤ (c.runOps ops).order_quantity := by
  induction ops generalizing c with
  | nil => exact ⟨hinv, le_rfl⟩
  | cons op rest ih =>
    have hstep := clientInv_applyOp c op hinv
    have htail := ih (c.applyOp op) hstep.1
    exact ⟨htail.1, le_trans hstep.2 htail.2⟩

/-- C7: along any sequence of client operations from construction (or from a
reset, which coincides with construction), the fulfilled order quantity never
decreases and never exceeds 1, and the completed state holds exactly when it
equals 1. -/
theorem client_order_quantity_invariant :
    ∀ ops more : List ClientOp,
      (Client.init.runOps ops).order_quantity
          ≤ (Client.init.runOps (ops ++ more)).order_quantity
      ∧ (Client.init.runOps ops).order_quantity ≤ 1
      ∧ ((Client.init.runOps ops).state = ClientState.completed ↔
          (Client.init.runOps ops).order_quantity = 1) := by
  intro ops more
  have hbase := clientInv_runOps Client.init ops clientInv_init
  have happ : Client.init.runOps (ops ++ more) = (Client.init.runOps ops).runOps more := by
    unfold Client.runOps
    exact List.foldl_append Client.applyOp Client.init ops more
  refine ⟨?_, hbase.1.1, hbase.1.2.1⟩
  rw [happ]
  exact (clientInv_runOps (Client.init.runOps ops) more hbase.1).2

/-- Counterexample to C1 as stated: from an idle machine, a `third` batch
request against an upstream source holding only 1/6 fails, yet the upstream
machine's stored output is NOT the same as before the request: the retrieved
1/6 is destroyed (stored output drops to 0). -/
theorem request_processing_cex :
    ((Machine.init "M2").request_processing (some witnessSourceSixth) BatchSize.third).2.2
        = false
    ∧ (((Machine.init "M2").request_processing (some witnessSourceSixth) BatchSize.third).2.1.map
          Machine.stored_output) = some 0
    ∧ witnessSourceSixth.stored_output = 1/6
    ∧ (0 : ℚ) ≠ 1/6 := by
  refine ⟨?_, ?_, rfl, by norm_num⟩
  · norm_num [Machine.request_processing, Machine.retrieve_quantity, Machine.init,
      witnessSourceSixth, batchQty]
  · norm_num [Machine.request_processing, Machine.retrieve_quantity, Machine.init,
      witnessSourceSixth, batchQty]

/-- C1 (amended): a processing request on an idle machine with an upstream
source either succeeds, moving to `processing` and deducting exactly the
raw-material need from the upstream store, or fails, leaving the requesting
machine unchanged but the upstream machine's stored output drained to 0 (the
partially retrieved amount is lost, not restored). -/
theorem request_processing_amended :
    ∀ (m src : Machine) (bs : BatchSize), m.state = MachineState.idle →
      (((m.request_processing (some src) bs).2.2 = true
          ∧ (m.request_processing (some src) bs).1.state = MachineState.processing
          ∧ (m.request_processing (some src) bs).1.current_batch_size = some bs
          ∧ batchQty bs ≤ src.stored_output
          ∧ ((m.request_processing (some src) bs).2.1.map Machine.stored_output)
              = some (src.stored_output - batchQty bs))
        ∨ ((m.request_processing (some src) bs).2.2 = false
          ∧ (m.request_processing (some src) bs).1 = m
          ∧ src.stored_output < batchQty bs
          ∧ ((m.request_processing (some src) bs).2.1.map Machine.stored_output)
              = some 0)) := by
  intro m src bs h
  by_cases hlt : src.stored_output < batchQty bs
  · right
    have hmin : min (batchQty bs) src.stored_output = src.stored_output :=
      min_eq_right (le_of_lt hlt)
    unfold Machine.request_processing Machine.retrieve_quantity
    rw [if_pos h]
    simp only [hmin, hlt, if_pos, sub_self]
    simp [hlt]
  · left
    push_neg at hlt
    have hmin : min (batchQty bs) src.stored_output = batchQty bs := min_eq_left hlt
    unfold Machine.request_processing Machine.retrieve_quantity
    rw [if_pos h]
    simp only [hmin, lt_irrefl, if_neg, not_false_iff]
    simp [hlt]

/-- Witness for C1 (amended) at a concrete success instance. -/
theorem request_processing_amended_witness :
    (((Machine.init "M2").request_processing (some witnessSourceFull) BatchSize.third).2.2 = true
        ∧ ((Machine.init "M2").request_processing (some witnessSourceFull) BatchSize.third).1.state
            = MachineState.processing
        ∧ ((Machine.init "M2").request_processing (some witnessSourceFull) BatchSize.third).1.current_batch_size
            = some BatchSize.third
        ∧ batchQty BatchSize.third ≤ witnessSourceFull.stored_output
        ∧ (((Machine.init "M2").request_processing (some witnessSourceFull) BatchSize.third).2.1.map
              Machine.stored_output)
            = some (witnessSourceFull.stored_output - batchQty BatchSize.third))
      ∨ (((Machine.init "M2").request_processing (some witnessSourceFull) BatchSize.third).2.2 = false
        ∧ ((Machine.init "M2").request_processing (some witnessSourceFull) BatchSize.third).1
            = Machine.init "M2"
        ∧ witnessSourceFull.stored_output < batchQty BatchSize.third
        ∧ (((Machine.init "M2").request_processing (some witnessSourceFull) BatchSize.third).2.1.map
              Machine.stored_output)
            = some 0) :=
  request_processing_amended (Machine.init "M2") witnessSourceFull BatchSize.third rfl

/-- C4: one `System.step()` is exactly the sequential composition of the five
per-entity one-tick advances in the fixed order M1, M2, small truck, big
truck, client (each leg swallowing its entity's errors), and the returned
observation is `get_state` of the state reached after all five have
stepped. -/
theorem system_step_order :
    ∀ (s : Sys) (sample1 sample2 : BatchSize → Option BatchSize),
      s.stepObs sample1 sample2
        = (((((s.stepM1Part sample1).stepM2Part sample2).stepTSPart).stepTBPart).stepClientPart,
           Sys.get_state
             (((((s.stepM1Part sample1).stepM2Part sample2).stepTSPart).stepTBPart).stepClientPart))
      ∧ (s.stepObs sample1 sample2).2 = (s.stepObs sample1 sample2).1.get_state := by
  intro s sample1 sample2
  exact ⟨rfl, rfl⟩

/-- C8: every per-entity command method performs its single request attempt on
the named entity (all other entities are untouched; the `m2_processing` and
truck commands also touch their retrieval source M1 resp. M2) and returns the
observation of the resulting state whether or not the request succeeded; in
particular `small_truck_shipment` with an empty M2 store is a complete no-op
returning the pre-call observation. -/
theorem command_methods_spec :
    (∀ (s : Sys) (bs : BatchSize),
      (s.m1Processing bs).client = s.client ∧ (s.m1Processing bs).m2 = s.m2
      ∧ (s.m1Processing bs).small_truck = s.small_truck
      ∧ (s.m1Processing bs).big_truck = s.big_truck
      ∧ (s.m1Processing bs).m1 = (s.m1.request_processing none bs).1)
    ∧ (∀ s : Sys,
      (s.m1Maintenance).client = s.client ∧ (s.m1Maintenance).m2 = s.m2
      ∧ (s.m1Maintenance).small_truck = s.small_truck
      ∧ (s.m1Maintenance).big_truck = s.big_truck
      ∧ (s.m1Maintenance).m1 = s.m1.request_maintenance.1)
    ∧ (∀ (s : Sys) (bs : BatchSize),
      (s.m2Processing bs).client = s.client
      ∧ (s.m2Processing bs).small_truck = s.small_truck
      ∧ (s.m2Processing bs).big_truck = s.big_truck
      ∧ (s.m2Processing bs).m2 = (s.m2.request_processing (some s.m1) bs).1)
    ∧ (∀ s : Sys,
      (s.m2Maintenance).client = s.client ∧ (s.m2Maintenance).m1 = s.m1
      ∧ (s.m2Maintenance).small_truck = s.small_truck
      ∧ (s.m2Maintenance).big_truck = s.big_truck
      ∧ (s.m2Maintenance).m2 = s.m2.request_maintenance.1)
    ∧ (∀ s : Sys,
      (s.smallTruckShipment).client = s.client ∧ (s.smallTruckShipment).m1 = s.m1
      ∧ (s.smallTruckShipment).big_truck = s.big_truck
      ∧ (s.smallTruckShipment).small_truck = (s.small_truck.request_shipment s.m2).1)
    ∧ (∀ s : Sys,
      (s.bigTruckShipment).client = s.client ∧ (s.bigTruckShipment).m1 = s.m1
      ∧ (s.bigTruckShipment).small_truck = s.small_truck
      ∧ (s.bigTruckShipment).big_truck = (s.big_truck.request_shipment s.m2).1)
    ∧ (∀ s : Sys,
      (Sys.m1_processing_third s).2 = (Sys.m1_processing_third s).1.get_state
      ∧ (Sys.m1_processing_half s).2 = (Sys.m1_processing_half s).1.get_state
      ∧ (Sys.m1_processing_full s).2 = (Sys.m1_processing_full s).1.get_state
      ∧ (Sys.m1_maintenance s).2 = (Sys.m1_maintenance s).1.get_state
      ∧ (Sys.m2_processing_third s).2 = (Sys.m2_processing_third s).1.get_state
      ∧ (Sys.m2_processing_half s).2 = (Sys.m2_processing_half s).1.get_state
      ∧ (Sys.m2_processing_full s).2 = (Sys.m2_processing_full s).1.get_state
      ∧ (Sys.m2_maintenance s).2 = (Sys.m2_maintenance s).1.get_state
      ∧ (Sys.small_truck_shipment s).2 = (Sys.small_truck_shipment s).1.get_state
      ∧ (Sys.big_truck_shipment s).2 = (Sys.big_truck_shipment s).1.get_state)
    ∧ (∀ s : Sys, 0 ≤ s.small_truck.capacity → s.m2.stored_output = 0 →
        Sys.small_truck_shipment s = (s, s.get_state)) := by
  refine ⟨fun s bs => ⟨rfl, rfl, rfl, rfl, rfl⟩,
          fun s => ⟨rfl, rfl, rfl, rfl, rfl⟩,
          fun s bs => ⟨rfl, rfl, rfl, ?_⟩,
          fun s => ⟨rfl, rfl, rfl, rfl, rfl⟩,
          fun s => ⟨rfl, rfl, rfl, rfl⟩,
          fun s => ⟨rfl, rfl, rfl, rfl⟩,
          fun s => ⟨rfl, rfl, rfl, rfl, rfl, rfl, rfl, rfl, rfl, rfl⟩,
          ?_⟩
  · rfl
  · intro s hcap hm2
    have hs : s.smallTruckShipment = s := by
      unfold Sys.smallTruckShipment Truck.request_shipment Machine.retrieve_quantity
      by_cases hav : s.small_truck.state = TruckState.available
      · rw [if_pos hav]
        simp only [hm2, min_eq_right hcap, sub_zero, le_refl, if_pos]
        rw [← hm2]
      · rw [if_neg hav]
    unfold Sys.small_truck_shipment
    rw [hs]

/-- Witness for C8: on the fresh system (whose M2 store is empty) the
small-truck command is a no-op returning the unchanged observation. -/
theorem command_methods_spec_witness :
    Sys.small_truck_shipment (freshSys 0) = (freshSys 0, (freshSys 0).get_state) :=
  command_methods_spec.2.2.2.2.2.2.2 (freshSys 0)
    (by rw [freshSys_eq]; norm_num [Truck.init])
    (by rw [freshSys_eq]; norm_num [Machine.init])

theorem strategyCommand_ne_big (s : Sys) :
    s.strategyCommand ≠ Cmd.big_truck_shipment := by
  unfold Sys.strategyCommand
  split_ifs with h1 h2 h3 h4 h5 h6
  · simp
  · simp
  · simp
  · simp
  · simp
  · simp only [Bool.and_eq_true] at h5 h6
    exact absurd ⟨h6.1.1, h6.2⟩ h5
  · simp

/-- C3: `enact_strategy` with a completed client returns the literal
`Completed <True|False> <priority>` string and executes no command; otherwise
it executes exactly the first matching rule of the priority-ordered rule
table (m2 maintenance, m2 third batch, m1 maintenance, m1 full batch, small
truck, big truck, falling through to step).  The `1 ≤ order_quantity` side
condition of the source's terminal test holds for every reachable client
(the client order-quantity invariant). -/
theorem enact_strategy_spec :
    ∀ (s : Sys) (sample1 sample2 : BatchSize → Option BatchSize),
      (s.client.state = ClientState.completed → 1 ≤ s.client.order_quantity →
        s.enactStrategyAct sample1 sample2
          = (s, Sum.inl ("Completed "
              ++ (if s.client.time_passed ≤ s.client.time_limit.getD 0 then "True"
                  else "False")
              ++ " " ++ (match s.client.current_priority with
                         | some .low => "low"
                         | some .medium => "medium"
                         | some .high => "high"
                         | none => "None"))))
      ∧ (¬(s.client.state = ClientState.completed ∧ 1 ≤ s.client.order_quantity) →
          s.enactStrategyAct sample1 sample2
            = (runCmd sample1 sample2 (firstMatch strategyRules s Cmd.step) s,
               Sum.inr (firstMatch strategyRules s Cmd.step))) := by
  intro s sample1 sample2
  constructor
  · intro h1 h2
    unfold Sys.enactStrategyAct Sys.enactDecision
    rw [if_pos ⟨h1, h2⟩]
    rfl
  · intro h
    unfold Sys.enactStrategyAct Sys.enactDecision
    rw [if_neg h]
    rfl

/-- Witness for C3: the terminal branch on a completed system and the
rule-table branch on a fresh system. -/
theorem enact_strategy_spec_witness :
    witnessCompletedSys.enactStrategyAct perfectSample perfectSample
      = (witnessCompletedSys, Sum.inl ("Completed "
          ++ (if witnessCompletedSys.client.time_passed
                ≤ witnessCompletedSys.client.time_limit.getD 0 then "True" else "False")
          ++ " " ++ (match witnessCompletedSys.client.current_priority with
                     | some .low => "low"
                     | some .medium => "medium"
                     | some .high => "high"
                     | none => "None")))
    ∧ (freshSys 0).enactStrategyAct perfectSample perfectSample
      = (runCmd perfectSample perfectSample
           (firstMatch strategyRules (freshSys 0) Cmd.step) (freshSys 0),
         Sum.inr (firstMatch strategyRules (freshSys 0) Cmd.step)) :=
  ⟨(enact_strategy_spec witnessCompletedSys perfectSample perfectSample).1 rfl (le_refl 1),
   (enact_strategy_spec (freshSys 0) perfectSample perfectSample).2
     (by rw [freshSys_eq]; simp)⟩

/-- C9: the built-in strategy can never select `big_truck_shipment`: the
big-truck guard implies the small-truck guard tested just before it, so the
branch is dead and the big truck is never dispatched by `enact_strategy`. -/
theorem strategy_never_big_truck :
    ∀ (s : Sys) (sample1 sample2 : BatchSize → Option BatchSize),
      s.enactDecision ≠ Sum.inr Cmd.big_truck_shipment
      ∧ (s.enactStrategyAct sample1 sample2).2 ≠ Sum.inr Cmd.big_truck_shipment := by
  intro s sample1 sample2
  have hdec : s.enactDecision ≠ Sum.inr Cmd.big_truck_shipment := by
    unfold Sys.enactDecision
    split_ifs with h1
    · simp
    · simp [strategyCommand_ne_big s]
  refine ⟨hdec, ?_⟩
  unfold Sys.enactStrategyAct
  cases hd : s.enactDecision with
  | inl m => simp
  | inr c =>
    rw [hd] at hdec
    simp only [Sum.inr.injEq] at hdec ⊢
    simp [hdec]

theorem truck_step_rejected (t : Truck) (c : Client)
    (hd : t.state = TruckState.delivering)
    (hr : exceptOk (c.quantity_shipped t.current_load) = false) :
    t.step c = ({ t with time_remaining := t.time_remaining - 1 }, c, false) := by
  obtain ⟨n, cap, ttd, st, load, tr⟩ := t
  simp only at hd hr
  subst hd
  simp only [Truck.step]
  by_cases ht : tr - 1 ≤ 0
  · rw [if_pos ht]
    cases hq : c.quantity_shipped load with
    | ok r =>
      rw [hq] at hr
      exact absurd hr (by simp [exceptOk])
    | error e => rfl
  · rw [if_neg ht]

/-- C10: when a truck's delivery countdown reaches zero but the client
rejects `quantity_shipped(current_load)`, the truck stays in `delivering`
with its load intact and a non-positive countdown; and along any run of
`System.step()` calls during which the client keeps rejecting the small
truck's load, the small truck remains `delivering` with its load unchanged,
never returning to `available` (the swallowed error makes each tick re-attempt
the same delivery). -/
theorem truck_stuck_delivery :
    (∀ (t : Truck) (c : Client),
      t.state = TruckState.delivering →
      exceptOk (c.quantity_shipped t.current_load) = false →
      t.time_remaining ≤ 1 →
      t.step c = ({ t with time_remaining := t.time_remaining - 1 }, c, false)
        ∧ t.time_remaining - 1 ≤ 0)
    ∧ (∀ (s : Sys)
        (ps : List ((BatchSize → Option BatchSize) × (BatchSize → Option BatchSize))),
      s.small_truck.state = TruckState.delivering →
      stuckRun s ps = true →
      (runSteps s ps).small_truck.state = TruckState.delivering
        ∧ (runSteps s ps).small_truck.current_load = s.small_truck.current_load) := by
  constructor
  · intro t c hd hr ht
    exact ⟨truck_step_rejected t c hd hr, by omega⟩
  · intro s ps hd hstuck
    induction ps generalizing s with
    | nil => exact ⟨hd, rfl⟩
    | cons p rest ih =>
      simp only [stuckRun, Bool.and_eq_true, Bool.not_eq_true'] at hstuck
      obtain ⟨hrej, htail⟩ := hstuck
      have hstep := truck_step_rejected s.small_truck s.client hd hrej
      have hts : (s.step p.1 p.2).small_truck
          = { s.small_truck with time_remaining := s.small_truck.time_remaining - 1 } := by
        show (s.small_truck.step s.client).1 = _
        rw [hstep]
      have hd' : (s.step p.1 p.2).small_truck.state = TruckState.delivering := by
        rw [hts]
        exact hd
      have hload : (s.step p.1 p.2).small_truck.current_load = s.small_truck.current_load := by
        rw [hts]
      have hrun : runSteps s (p :: rest) = runSteps (s.step p.1 p.2) rest := rfl
      have hrest := ih (s.step p.1 p.2) hd' htail
      rw [hrun]
      exact ⟨hrest.1, by rw [hrest.2, hload]⟩

/-- Witness for C10 at a concrete stuck configuration. -/
theorem truck_stuck_delivery_witness :
    (witnessStuckTruck.step witnessCompletedSys.client
        = ({ witnessStuckTruck with
               time_remaining := witnessStuckTruck.time_remaining - 1 },
           witnessCompletedSys.client, false)
      ∧ witnessStuckTruck.time_remaining - 1 ≤ 0)
    ∧ ((runSteps witnessStuckSys [(perfectSample, perfectSample)]).small_truck.state
          = TruckState.delivering
      ∧ (runSteps witnessStuckSys [(perfectSample, perfectSample)]).small_truck.current_load
          = witnessStuckSys.small_truck.current_load) :=
  ⟨truck_stuck_delivery.1 witnessStuckTruck witnessCompletedSys.client rfl rfl (by norm_num [witnessStuckTruck, Truck.init]),
   truck_stuck_delivery.2 witnessStuckSys [(perfectSample, perfectSample)] rfl rfl⟩

theorem quantity_shipped_ok_qty (c : Client) (q : ℚ) (r : Client × ℚ)
    (h : c.quantity_shipped q = .ok r) :
    r.1.order_quantity = c.order_quantity + q := by
  unfold Client.quantity_shipped at h
  split_ifs at h with h1 h2 h3
  all_goals
    first
      | (simp only [Except.ok.injEq] at h
         rw [← h])
      | exact absurd h (by simp)

theorem machine_step_material (m : Machine) (sample : BatchSize → Option BatchSize) :
    ((m.step sample).1.raw_material_consumed = m.raw_material_consumed
      ∧ (0 ≤ m.stored_output → 0 ≤ (m.step sample).1.stored_output))
    ∧ (sample = perfectSample →
        (m.step sample).1.inFlight + (m.step sample).1.stored_output
          = m.inFlight + m.stored_output) := by
  obtain ⟨n, st, cb, tr, so, rmc, ma, tot, pt, mt, mc⟩ := m
  cases st with
  | idle => exact ⟨⟨rfl, fun h => h⟩, fun _ => rfl⟩
  | maintenance =>
    by_cases ht : tr - 1 ≤ 0 <;>
      simp [Machine.step, ht, Machine.inFlight]
  | processing =>
    cases cb with
    | none =>
      by_cases ht : tr - 1 ≤ 0 <;>
        simp [Machine.step, ht, Machine.inFlight]
    | some bs =>
      simp only [Machine.step]
      by_cases ht : tr - 1 ≤ 0
      · rw [if_pos ht]
        refine ⟨⟨rfl, ?_⟩, ?_⟩
        · intro h
          have hadd : (0:ℚ) ≤ (match sample bs with
              | some outcome => batchQty outcome
              | none => 0) := by
            cases hs : sample bs with
            | some outcome => exact le_of_lt (batchQty_pos outcome)
            | none => exact le_refl 0
          exact add_nonneg h hadd
        · intro hs
          subst hs
          simp [Machine.inFlight, perfectSample] <;> ring
      · rw [if_neg ht]
        refine ⟨⟨rfl, fun h => h⟩, fun _ => ?_⟩
        simp [Machine.inFlight]

theorem client_step_time_qty (c : Client) :
    (c.step_time).1.order_quantity = c.order_quantity
      ∧ (c.step_time).1.state = c.state := by
  unfold Client.step_time
  split_ifs <;> exact ⟨rfl, rfl⟩

theorem truck_step_material (t : Truck) (c : Client) :
    (t.step c).1.inTransit + (t.step c).2.1.order_quantity
        = t.inTransit + c.order_quantity
    ∧ (t.step c).1.capacity = t.capacity := by
  obtain ⟨n, cap, ttd, st, load, tr⟩ := t
  cases st with
  | available => exact ⟨rfl, rfl⟩
  | delivering =>
    simp only [Truck.step]
    by_cases ht : tr - 1 ≤ 0
    · rw [if_pos ht]
      cases hq : c.quantity_shipped load with
      | ok r =>
        have hqty := quantity_shipped_ok_qty c load r hq
        refine ⟨?_, rfl⟩
        simp [Truck.inTransit, hqty]
        ring
      | error e =>
        refine ⟨?_, rfl⟩
        simp [Truck.inTransit]
    · rw [if_neg ht]
      refine ⟨?_, rfl⟩
      simp [Truck.inTransit]

theorem truck_request_material (t : Truck) (m : Machine)
    (hm : 0 ≤ m.stored_output) (hcap : 0 < t.capacity) :
    (t.request_shipment m).1.inTransit + (t.request_shipment m).2.1.stored_output
        = t.inTransit + m.stored_output
    ∧ 0 ≤ (t.request_shipment m).2.1.stored_output
    ∧ (t.request_shipment m).1.capacity = t.capacity
    ∧ (t.request_shipment m).2.1.raw_material_consumed = m.raw_material_consumed
    ∧ (t.request_shipment m).2.1.inFlight = m.inFlight
    ∧ (t.request_shipment m).2.1.state = m.state := by
  obtain ⟨n, cap, ttd, st, load, tr⟩ := t
  cases st with
  | delivering =>
    exact ⟨rfl, hm, rfl, rfl, rfl, rfl⟩
  | available =>
    have h0 : (0:ℚ) ≤ min cap m.stored_output := le_min (le_of_lt hcap) hm
    have hmin : min cap m.stored_output ≤ m.stored_output :=
      min_le_right cap m.stored_output
    by_cases hr : min cap m.stored_output ≤ 0
    · have hz : min cap m.stored_output = 0 := le_antisymm hr h0
      simp [Truck.request_shipment, Machine.retrieve_quantity, hz, Truck.inTransit, hm]
    · simp [Truck.request_shipment, Machine.retrieve_quantity, hr, Truck.inTransit,
        Machine.inFlight]
      all_goals
        first
          | linarith
          | (constructor <;> linarith)

theorem totalAmended_def (s : Sys) :
    totalAmended s = s.m1.inFlight + s.m1.stored_output + s.m2.inFlight
      + s.m2.stored_output + s.small_truck.inTransit + s.big_truck.inTransit
      + s.client.order_quantity := by
  unfold totalAmended totalSpec
  ring

theorem inFlight_not_processing (m : Machine) (h : ¬ m.state = MachineState.processing) :
    m.inFlight = 0 := by
  simp [Machine.inFlight, h]

theorem sysInv_m1Processing (s : Sys) (bs : BatchSize) (hinv : SysInv s) :
    SysInv (s.m1Processing bs) := by
  obtain ⟨hcons, hm1, hm2, hts, htb⟩ := hinv
  by_cases h : s.m1.state = MachineState.idle
  · have hreq : s.m1.request_processing none bs
        = ({ s.m1 with
              raw_material_consumed := s.m1.raw_material_consumed + batchQty bs
              state := .processing
              current_batch_size := some bs
              time_remaining := s.m1.processing_times bs }, none, true) := by
      unfold Machine.request_processing
      rw [if_pos h]
    have hsys : s.m1Processing bs
        = { s with m1 := { s.m1 with
              raw_material_consumed := s.m1.raw_material_consumed + batchQty bs
              state := .processing
              current_batch_size := some bs
              time_remaining := s.m1.processing_times bs } } := by
      unfold Sys.m1Processing
      rw [hreq]
    rw [hsys]
    refine ⟨?_, hm1, hm2, hts, htb⟩
    rw [totalAmended_def] at hcons ⊢
    simp [Machine.inFlight, h] at hcons ⊢
    linarith
  · have hreq : s.m1.request_processing none bs = (s.m1, none, false) := by
      unfold Machine.request_processing
      rw [if_neg h]
    have hsys : s.m1Processing bs = s := by
      unfold Sys.m1Processing
      rw [hreq]
    rw [hsys]
    rw [totalAmended_def] at hcons
    exact ⟨by rw [totalAmended_def]; linarith, hm1, hm2, hts, htb⟩

theorem sysInv_m1Maintenance (s : Sys) (hinv : SysInv s) : SysInv s.m1Maintenance := by
  obtain ⟨hcons, hm1, hm2, hts, htb⟩ := hinv
  by_cases h : s.m1.state = MachineState.idle
  · have hreq : s.m1.request_maintenance
        = ({ s.m1 with
              state := .maintenance
              time_remaining := s.m1.maintenance_time
              total_operator_time :=
                s.m1.total_operator_time + s.m1.maintenance_operator_cost }, true) := by
      unfold Machine.request_maintenance
      rw [if_pos h]
    have hsys : s.m1Maintenance
        = { s with m1 := { s.m1 with
              state := .maintenance
              time_remaining := s.m1.maintenance_time
              total_operator_time :=
                s.m1.total_operator_time + s.m1.maintenance_operator_cost } } := by
      unfold Sys.m1Maintenance
      rw [hreq]
    rw [hsys]
    refine ⟨?_, hm1, hm2, hts, htb⟩
    rw [totalAmended_def] at hcons ⊢
    simp [Machine.inFlight, h] at hcons ⊢
    linarith
  · have hreq : s.m1.request_maintenance = (s.m1, false) := by
      unfold Machine.request_maintenance
      rw [if_neg h]
    have hsys : s.m1Maintenance = s := by
      unfold Sys.m1Maintenance
      rw [hreq]
    rw [hsys]
    exact ⟨hcons, hm1, hm2, hts, htb⟩

theorem sysInv_m2Maintenance (s : Sys) (hinv : SysInv s) : SysInv s.m2Maintenance := by
  obtain ⟨hcons, hm1, hm2, hts, htb⟩ := hinv
  by_cases h : s.m2.state = MachineState.idle
  · have hreq : s.m2.request_maintenance
        = ({ s.m2 with
              state := .maintenance
              time_remaining := s.m2.maintenance_time
              total_operator_time :=
                s.m2.total_operator_time + s.m2.maintenance_operator_cost }, true) := by
      unfold Machine.request_maintenance
      rw [if_pos h]
    have hsys : s.m2Maintenance
        = { s with m2 := { s.m2 with
              state := .maintenance
              time_remaining := s.m2.maintenance_time
              total_operator_time :=
                s.m2.total_operator_time + s.m2.maintenance_operator_cost } } := by
      unfold Sys.m2Maintenance
      rw [hreq]
    rw [hsys]
    refine ⟨?_, hm1, hm2, hts, htb⟩
    rw [totalAmended_def] at hcons ⊢
    simp [Machine.inFlight, h] at hcons ⊢
    linarith
  · have hreq : s.m2.request_maintenance = (s.m2, false) := by
      unfold Machine.request_maintenance
      rw [if_neg h]
    have hsys : s.m2Maintenance = s := by
      unfold Sys.m2Maintenance
      rw [hreq]
    rw [hsys]
    exact ⟨hcons, hm1, hm2, hts, htb⟩

theorem sysInv_m2Processing (s : Sys) (bs : BatchSize) (hinv : SysInv s)
    (hgood : s.m2.state = MachineState.idle →
      batchQty bs ≤ s.m1.stored_output ∨ s.m1.stored_output ≤ 0) :
    SysInv (s.m2Processing bs) := by
  obtain ⟨hcons, hm1, hm2, hts, htb⟩ := hinv
  by_cases h : s.m2.state = MachineState.idle
  · rcases hgood h with hge | hle
    · have hmin : min (batchQty bs) s.m1.stored_output = batchQty bs := min_eq_left hge
      have hreq : s.m2.request_processing (some s.m1) bs
          = ({ s.m2 with
                state := .processing
                current_batch_size := some bs
                time_remaining := s.m2.processing_times bs },
             some { s.m1 with stored_output := s.m1.stored_output - batchQty bs },
             true) := by
        unfold Machine.request_processing Machine.retrieve_quantity
        rw [if_pos h]
        simp only [hmin]
        rw [if_neg (lt_irrefl (batchQty bs))]
      have hsys : s.m2Processing bs
          = { s with
                m2 := { s.m2 with
                  state := .processing
                  current_batch_size := some bs
                  time_remaining := s.m2.processing_times bs }
                m1 := { s.m1 with
                  stored_output := s.m1.stored_output - batchQty bs } } := by
        unfold Sys.m2Processing
        rw [hreq]
        rfl
      rw [hsys]
      refine ⟨?_, ?_, hm2, hts, htb⟩
      · rw [totalAmended_def] at hcons ⊢
        simp [Machine.inFlight, h] at hcons ⊢
        linarith
      · show 0 ≤ s.m1.stored_output - batchQty bs
        linarith
    · have hz : s.m1.stored_output = 0 := le_antisymm hle hm1
      have hmin : min (batchQty bs) s.m1.stored_output = 0 := by
        rw [hz]
        exact min_eq_right (le_of_lt (batchQty_pos bs))
      have hreq : s.m2.request_processing (some s.m1) bs
          = (s.m2, some { s.m1 with stored_output := s.m1.stored_output - 0 }, false) := by
        unfold Machine.request_processing Machine.retrieve_quantity
        rw [if_pos h]
        simp only [hmin]
        rw [if_pos (batchQty_pos bs)]
      have hsys : s.m2Processing bs = s := by
        unfold Sys.m2Processing
        rw [hreq]
        show ({ s with
                 m2 := s.m2
                 m1 := { s.m1 with stored_output := s.m1.stored_output - 0 } } : Sys) = s
        rw [sub_zero]
      rw [hsys]
      exact ⟨hcons, hm1, hm2, hts, htb⟩
  · have hreq : s.m2.request_processing (some s.m1) bs = (s.m2, some s.m1, false) := by
      unfold Machine.request_processing
      rw [if_neg h]
    have hsys : s.m2Processing bs = s := by
      unfold Sys.m2Processing
      rw [hreq]
      rfl
    rw [hsys]
    exact ⟨hcons, hm1, hm2, hts, htb⟩

theorem sysInv_smallTruckShipment (s : Sys) (hinv : SysInv s) :
    SysInv s.smallTruckShipment := by
  obtain ⟨hcons, hm1, hm2, hts, htb⟩ := hinv
  have hmat := truck_request_material s.small_truck s.m2 hm2 hts
  refine ⟨?_, hm1, hmat.2.1, ?_, htb⟩
  · rw [totalAmended_def]
    show s.m1.raw_material_consumed
        = s.m1.inFlight + s.m1.stored_output
          + (s.small_truck.request_shipment s.m2).2.1.inFlight
          + (s.small_truck.request_shipment s.m2).2.1.stored_output
          + (s.small_truck.request_shipment s.m2).1.inTransit
          + s.big_truck.inTransit + s.client.order_quantity
    rw [hmat.2.2.2.2.1]
    rw [totalAmended_def] at hcons
    linarith [hmat.1]
  · show 0 < (s.small_truck.request_shipment s.m2).1.capacity
    rw [hmat.2.2.1]
    exact hts

theorem sysInv_bigTruckShipment (s : Sys) (hinv : SysInv s) :
    SysInv s.bigTruckShipment := by
  obtain ⟨hcons, hm1, hm2, hts, htb⟩ := hinv
  have hmat := truck_request_material s.big_truck s.m2 hm2 htb
  refine ⟨?_, hm1, hmat.2.1, hts, ?_⟩
  · rw [totalAmended_def]
    show s.m1.raw_material_consumed
        = s.m1.inFlight + s.m1.stored_output
          + (s.big_truck.request_shipment s.m2).2.1.inFlight
          + (s.big_truck.request_shipment s.m2).2.1.stored_output
          + s.small_truck.inTransit
          + (s.big_truck.request_shipment s.m2).1.inTransit
          + s.client.order_quantity
    rw [hmat.2.2.2.2.1]
    rw [totalAmended_def] at hcons
    linarith [hmat.1]
  · show 0 < (s.big_truck.request_shipment s.m2).1.capacity
    rw [hmat.2.2.1]
    exact htb

theorem sysInv_step (s : Sys) (hinv : SysInv s) :
    SysInv (s.step perfectSample perfectSample) := by
  obtain ⟨hcons, hm1, hm2, hts, htb⟩ := hinv
  have h1 := machine_step_material s.m1 perfectSample
  have h2 := machine_step_material s.m2 perfectSample
  have hts1 := truck_step_material s.small_truck s.client
  have htb1 := truck_step_material s.big_truck ((s.small_truck.step s.client).2.1)
  have hc := client_step_time_qty
    ((s.big_truck.step ((s.small_truck.step s.client).2.1)).2.1)
  have e1 : (s.step perfectSample perfectSample).m1 = (s.m1.step perfectSample).1 := rfl
  have e2 : (s.step perfectSample perfectSample).m2 = (s.m2.step perfectSample).1 := rfl
  have e3 : (s.step perfectSample perfectSample).small_truck
      = (s.small_truck.step s.client).1 := rfl
  have e4 : (s.step perfectSample perfectSample).big_truck
      = (s.big_truck.step ((s.small_truck.step s.client).2.1)).1 := rfl
  have e5 : (s.step perfectSample perfectSample).client
      = (((s.big_truck.step ((s.small_truck.step s.client).2.1)).2.1).step_time).1 := rfl
  refine ⟨?_, ?_, ?_, ?_, ?_⟩
  · rw [totalAmended_def, e1, e2, e3, e4, e5, h1.1.1]
    rw [totalAmended_def] at hcons
    linarith [h1.2 rfl, h2.2 rfl, hts1.1, htb1.1, hc.1]
  · rw [e1]
    exact h1.1.2 hm1
  · rw [e2]
    exact h2.1.2 hm2
  · rw [e3, hts1.2]
    exact hts
  · rw [e4, htb1.2]
    exact htb

theorem sysInv_runCmd (s : Sys) (c : Cmd) (hinv : SysInv s)
    (hgood : goodCmdB s c = true) :
    SysInv (runCmd perfectSample perfectSample c s) := by
  cases c with
  | m1_processing_third => exact sysInv_m1Processing s .third hinv
  | m1_processing_half => exact sysInv_m1Processing s .half hinv
  | m1_processing_full => exact sysInv_m1Processing s .full hinv
  | m1_maintenance => exact sysInv_m1Maintenance s hinv
  | m2_processing_third =>
    refine sysInv_m2Processing s .third hinv ?_
    intro h
    simp [goodCmdB, h, Bool.or_eq_true, decide_eq_true_eq] at hgood
    exact hgood
  | m2_processing_half =>
    refine sysInv_m2Processing s .half hinv ?_
    intro h
    simp [goodCmdB, h, Bool.or_eq_true, decide_eq_true_eq] at hgood
    exact hgood
  | m2_processing_full =>
    refine sysInv_m2Processing s .full hinv ?_
    intro h
    simp [goodCmdB, h, Bool.or_eq_true, decide_eq_true_eq] at hgood
    exact hgood
  | m2_maintenance => exact sysInv_m2Maintenance s hinv
  | small_truck_shipment => exact sysInv_smallTruckShipment s hinv
  | big_truck_shipment => exact sysInv_bigTruckShipment s hinv
  | step => exact sysInv_step s hinv

theorem sysInv_runPerfect (s : Sys) (cs : List Cmd) (hinv : SysInv s)
    (hgood : goodTraceB s cs = true) : SysInv (runPerfect s cs) := by
  induction cs generalizing s with
  | nil => exact hinv
  | cons c rest ih =>
    simp only [goodTraceB, Bool.and_eq_true] at hgood
    exact ih (runCmd perfectSample perfectSample c s)
      (sysInv_runCmd s c hinv hgood.1) hgood.2

theorem sysInv_fresh (rand_val : ℚ) : SysInv (freshSys rand_val) := by
  rw [freshSys_eq]
  unfold SysInv
  rw [totalAmended_def]
  norm_num [Machine.inFlight, Truck.inTransit, Machine.init, Truck.init, batchQty]

/-- Counterexample to C2 as stated: already for the empty command sequence
(during which no probabilistic outcome at all is sampled) the fresh system
violates the claimed identity, because the one unit of raw material consumed
by M1's initial full batch is still in flight inside M1 and appears in none
of the claimed summands: consumed = 1 but the claimed sum is 0. -/
theorem conservation_cex :
    runPerfect (freshSys 0) [] = freshSys 0
    ∧ (freshSys 0).m1.raw_material_consumed = 1
    ∧ totalSpec (freshSys 0) = 0
    ∧ (1 : ℚ) ≠ 0 := by
  refine ⟨rfl, ?_, ?_, by norm_num⟩
  · rw [freshSys_eq]
  · rw [freshSys_eq]
    norm_num [totalSpec, Machine.inFlight, Truck.inTransit, Machine.init, Truck.init]

/-- C2 (amended): along any alphabet-command trace from a fresh system in
which every sampled completion outcome equals its batch size (in particular
no "none" outcome) and no `m2_processing` request is issued that would drain
a positive-but-insufficient M1 store, M1's cumulative raw-material
consumption equals M1's in-flight input + M1.stored_output + M2's in-flight
input + M2.stored_output + truck loads in transit + Client.order_quantity.
The claim's own sum omits the M1 in-flight term, and outcome downgrades or
lossy failed M2 requests destroy material, hence the two amendments. -/
theorem conservation_amended :
    ∀ (rand_val : ℚ) (cs : List Cmd),
      goodTraceB (freshSys rand_val) cs = true →
      (runPerfect (freshSys rand_val) cs).m1.raw_material_consumed
        = totalAmended (runPerfect (freshSys rand_val) cs) := by
  intro rand_val cs hgood
  exact (sysInv_runPerfect (freshSys rand_val) cs (sysInv_fresh rand_val) hgood).1

/-- Witness for C2 (amended) on a concrete one-step trace. -/
theorem conservation_amended_witness :
    (runPerfect (freshSys 0) [Cmd.step]).m1.raw_material_consumed
      = totalAmended (runPerfect (freshSys 0) [Cmd.step]) :=
  conservation_amended 0 [Cmd.step] rfl
